import Mathlib

/-!
Verification development for the console-mcp log acquisition engine
(src/index.ts).  The definitions below are a shallow embedding of the
line-splitting, matching, bounded collection, and promise/event handling
of the acquisition functions `getMacLogs`, `searchLogs`,
`streamDeviceLogs`, `watchForPattern`, `getDeviceLogs` and their tool
handlers.  Stream content is modelled as `List Char`; each incoming
`data` chunk is a `List Char`; the JS `string.split("\n")` is modelled
by `splitNl`; the once-only promise `resolve` is modelled by `orSet` on
an `Option` field.
-/

/-- Model of JS `s.split("\n")` on character lists: splits at every
line-feed, keeping empty segments, and always returns at least one
(possibly empty) segment — `splitNl []` is `[[]]`, matching
`"".split("\n") = [""]`. -/
def splitNl : List Char → List (List Char)
  | [] => [[]]
  | c :: cs =>
    if c = '\n' then [] :: splitNl cs
    else
      match splitNl cs with
      | [] => [[c]]
      | l :: ls => (c :: l) :: ls

/-- The sequence of lines the code processes when the chunks arrive
separately: each chunk is split on line-feeds independently (the data
handlers in `getMacLogs`, `searchLogs`, `watchForPattern` call
`data.toString().split("\n")` per chunk, with no pending buffer carried
across chunks). -/
def linesOfChunks (chunks : List (List Char)) : List (List Char) :=
  (chunks.map splitNl).flatten

/-- Model of JS `String.prototype.startsWith` on character lists. -/
def listStartsWith : List Char → List Char → Bool
  | [], _ => true
  | _ :: _, [] => false
  | p :: ps, c :: cs => (p == c) && listStartsWith ps cs

/-- Model of JS `String.prototype.includes` (substring containment):
`listContains pat s` decides whether `pat` occurs contiguously in `s`. -/
def listContains (pat : List Char) : List Char → Bool
  | [] => listStartsWith pat []
  | c :: cs => listStartsWith pat (c :: cs) || listContains pat cs

/-- The plain (non-regex) matcher of `searchLogs` / `watchForPattern`:
`line.toLowerCase().includes(pattern.toLowerCase())`. -/
def substrMatch (pattern line : List Char) : Bool :=
  listContains (pattern.map Char.toLower) (line.map Char.toLower)

/-- Once-only promise resolution: a second `resolve` on an already
resolved promise is a no-op, so the stored result never changes after
it is first set. -/
def orSet {α : Type} (o : Option α) (v : α) : Option α :=
  match o with
  | some r => some r
  | none => some v

/-- State of the bounded collecting loop of `getMacLogs` (and the
identical loops in `getLogsByLevel` / `getSimulatorLogs`): the `output`
string is viewed as the list of lines appended so far (each appended in
the source as `line + "\n"`), together with the `lineCount` counter. -/
structure CollectSt where
  output : List (List Char)
  lineCount : Nat
deriving DecidableEq, Repr

/-- One iteration of the stdout collecting loop of `getMacLogs`
(index.ts lines 660-668): `if (lineCount < maxLines) { output += line +
"\n"; lineCount++; }`. -/
def collectStep (maxLines : Nat) (st : CollectSt) (line : List Char) : CollectSt :=
  if st.lineCount < maxLines then ⟨st.output ++ [line], st.lineCount + 1⟩ else st

/-- Processing one `data` chunk in `getMacLogs`: split on line-feeds,
then run the collecting loop over the pieces. -/
def collectChunk (maxLines : Nat) (st : CollectSt) (chunk : List Char) : CollectSt :=
  (splitNl chunk).foldl (collectStep maxLines) st

/-- The collecting loop of `getMacLogs` over a whole arrival sequence of
stdout chunks, from the initial empty buffer. -/
def collectRun (maxLines : Nat) (chunks : List (List Char)) : CollectSt :=
  chunks.foldl (collectChunk maxLines) ⟨[], 0⟩

/-- One iteration of the stdout loop of `searchLogs` (index.ts lines
767-775): `if (matcher(line) && lineCount < maxLines) { output += line +
"\n"; lineCount++; }`. -/
def searchStep (f : List Char → Bool) (maxLines : Nat) (st : CollectSt)
    (line : List Char) : CollectSt :=
  if f line ∧ st.lineCount < maxLines then ⟨st.output ++ [line], st.lineCount + 1⟩ else st

/-- The matching-and-collecting loop of `searchLogs` over a whole
arrival sequence of stdout chunks, from the initial empty buffer. -/
def searchCollectRun (f : List Char → Bool) (maxLines : Nat)
    (chunks : List (List Char)) : CollectSt :=
  chunks.foldl (fun st c => (splitNl c).foldl (searchStep f maxLines) st) ⟨[], 0⟩

/-- Steps of the synchronous setup phase of the `searchLogs` /
`watchForPattern` promise executors: spawning the external `log`
process, attempting to build the matcher (`new RegExp(query, "i")` when
`useRegex`), resolving early with the invalid-pattern result, and
attaching the stream/close/error handlers. -/
inductive InitStep where
  | spawnProc
  | buildRegex
  | resolveInvalid
  | attachHandlers
deriving DecidableEq, Repr

/-- The setup trace of `searchLogs` (index.ts lines 746-775): the `log
show` process is spawned at line 749, the matcher is constructed at
lines 753-765 (the `new RegExp` attempt succeeding iff `patternOk`,
with the invalid-pattern resolution and early return in the catch), and
only afterwards are the stdout/close/error handlers attached. -/
def searchLogsInit (useRegex patternOk : Bool) : List InitStep :=
  InitStep.spawnProc ::
    (if useRegex then
      InitStep.buildRegex ::
        (if patternOk then [InitStep.attachHandlers] else [InitStep.resolveInvalid])
    else [InitStep.attachHandlers])

/-- The setup trace of `watchForPattern` (index.ts lines 975-998): the
`log stream` process is spawned at line 981, the matcher is constructed
at lines 986-998 (resolving `{found: false, matchedLine: "", allOutput:
Invalid regex}` and returning early in the catch), and only afterwards
are the handlers attached. -/
def watchForPatternInit (useRegex patternOk : Bool) : List InitStep :=
  InitStep.spawnProc ::
    (if useRegex then
      InitStep.buildRegex ::
        (if patternOk then [InitStep.attachHandlers] else [InitStep.resolveInvalid])
    else [InitStep.attachHandlers])

/-- Whether a setup trace starts the external process strictly before
the matcher-construction (pattern validation) step. -/
def spawnedBeforeCheck (t : List InitStep) : Bool :=
  (t.takeWhile (fun s => s != InitStep.buildRegex)).contains InitStep.spawnProc

/-- Events delivered to one acquisition call's promise executor: a
stdout `data` chunk, a stderr `data` chunk, the process `close` event,
the process `error` event (e.g. spawning a nonexistent command), and
the `setTimeout` timer firing. -/
inductive ProcEv where
  | stdout (chunk : List Char)
  | stderrEv (chunk : List Char)
  | closeEv
  | errorEv (msg : List Char)
  | timer
deriving DecidableEq, Repr

def errText : List Char := "Error: ".toList

def stderrTag : List Char := "[stderr] ".toList

def noLogsFound : List Char := "No logs found".toList

def timeoutText : List Char := "Timeout".toList

/-- Mutable state of the `getMacLogs` promise executor: the literal
output character buffer, the line counter, whether `child.kill()` has
been requested, and the once-only resolved value. -/
structure MacSt where
  output : List Char
  lineCount : Nat
  killed : Bool
  resolved : Option (List Char)
deriving DecidableEq, Repr

def macInit : MacSt := ⟨[], 0, false, none⟩

/-- One iteration of the `getMacLogs` stdout loop on the literal buffer:
`if (lineCount < maxLines) { output += line + "\n"; lineCount++; }`. -/
def macLineStep (maxLines : Nat) (st : MacSt) (line : List Char) : MacSt :=
  if st.lineCount < maxLines then
    { st with output := st.output ++ line ++ ['\n'], lineCount := st.lineCount + 1 }
  else st

/-- Event handling of `getMacLogs` (index.ts lines 656-686): stdout
chunks are split and collected under the cap, stderr chunks are
appended with the `[stderr] ` tag, `close` resolves `output || "No logs
found"`, `error` resolves `Error:` plus the message, and the 15-second
timer kills the process and resolves `output || "Timeout"`. -/
def macEvStep (maxLines : Nat) (st : MacSt) : ProcEv → MacSt
  | .stdout chunk => (splitNl chunk).foldl (macLineStep maxLines) st
  | .stderrEv chunk => { st with output := st.output ++ stderrTag ++ chunk }
  | .closeEv =>
    { st with resolved := orSet st.resolved (if st.output = [] then noLogsFound else st.output) }
  | .errorEv msg => { st with resolved := orSet st.resolved (errText ++ msg) }
  | .timer =>
    { st with
      killed := true
      resolved := orSet st.resolved (if st.output = [] then timeoutText else st.output) }

def macRun (maxLines : Nat) (events : List ProcEv) : MacSt :=
  events.foldl (macEvStep maxLines) macInit

/-- Mutable state of the `searchLogs` promise executor. -/
structure SearchSt where
  output : List Char
  lineCount : Nat
  killed : Bool
  resolved : Option (List Char)
deriving DecidableEq, Repr

def searchInit : SearchSt := ⟨[], 0, false, none⟩

/-- One iteration of the `searchLogs` stdout loop on the literal buffer:
`if (matcher(line) && lineCount < maxLines) { output += line + "\n";
lineCount++; }`. -/
def searchLineStep (f : List Char → Bool) (maxLines : Nat) (st : SearchSt)
    (line : List Char) : SearchSt :=
  if f line ∧ st.lineCount < maxLines then
    { st with output := st.output ++ line ++ ['\n'], lineCount := st.lineCount + 1 }
  else st

def noMatchMsg (query : List Char) : List Char :=
  "No logs matching \"".toList ++ query ++ "\" found".toList

/-- Event handling of `searchLogs` (index.ts lines 746-789): stdout
chunks are split, matched, and collected under the cap; `searchLogs`
attaches no stderr handler, so stderr data is dropped; `close` resolves
`output` or the no-match message; `error` resolves `Error: ` plus the
message; the 30-second timer kills the process and resolves `output ||
"Timeout"`. -/
def searchEvStep (f : List Char → Bool) (maxLines : Nat) (query : List Char)
    (st : SearchSt) : ProcEv → SearchSt
  | .stdout chunk => (splitNl chunk).foldl (searchLineStep f maxLines) st
  | .stderrEv _ => st
  | .closeEv =>
    { st with resolved := orSet st.resolved (if st.output = [] then noMatchMsg query else st.output) }
  | .errorEv msg => { st with resolved := orSet st.resolved (errText ++ msg) }
  | .timer =>
    { st with
      killed := true
      resolved := orSet st.resolved (if st.output = [] then timeoutText else st.output) }

def searchRun (f : List Char → Bool) (maxLines : Nat) (query : List Char)
    (events : List ProcEv) : SearchSt :=
  events.foldl (searchEvStep f maxLines query) searchInit

def noLogsCaptured : List Char := "No logs captured during stream".toList

/-- Mutable state of the `streamDeviceLogs` promise executor (the
engine behind the `stream_logs` tool). -/
structure StreamSt where
  output : List Char
  killed : Bool
  resolved : Option (List Char)
deriving DecidableEq, Repr

def streamInit : StreamSt := ⟨[], false, none⟩

/-- Event handling of `streamDeviceLogs` (index.ts lines 690-737):
stdout and stderr chunks are appended raw (no line splitting, no cap);
no `close` handler is attached; `error` resolves `Error: ` plus the
message; the duration timer kills the process with SIGTERM and resolves
`output || "No logs captured during stream"`. -/
def streamEvStep (st : StreamSt) : ProcEv → StreamSt
  | .stdout chunk => { st with output := st.output ++ chunk }
  | .stderrEv chunk => { st with output := st.output ++ chunk }
  | .closeEv => st
  | .errorEv msg => { st with resolved := orSet st.resolved (errText ++ msg) }
  | .timer =>
    { st with
      killed := true
      resolved := orSet st.resolved (if st.output = [] then noLogsCaptured else st.output) }

def streamRun (events : List ProcEv) : StreamSt :=
  events.foldl streamEvStep streamInit

/-- The `stream_logs` tool handler's duration computation (index.ts line
1537): `Math.min((args?.durationSeconds as number) || 10, 30)`, the
JS `||` default treating an absent or zero value as 10. -/
def streamLogsDuration (d : Option Nat) : Nat :=
  min (match d with | none => 10 | some 0 => 10 | some (Nat.succ k) => Nat.succ k) 30

/-- The value `watchForPattern` resolves with. -/
structure WatchResult where
  found : Bool
  matchedLine : List Char
  allOutput : List Char
deriving DecidableEq, Repr

/-- Mutable state of the `watchForPattern` promise executor. -/
structure WatchSt where
  output : List Char
  found : Bool
  matchedLine : List Char
  killed : Bool
  resolved : Option WatchResult
deriving DecidableEq, Repr

def watchInit : WatchSt := ⟨[], false, [], false, none⟩

def timeoutNote : List Char := "\n\n⏱️ Timeout reached without finding pattern.".toList

/-- One iteration of the `watchForPattern` stdout loop (index.ts lines
1000-1010): `output += line + "\n"; if (!found && matcher(line)) {
found = true; matchedLine = line; child.kill("SIGTERM"); }`. -/
def watchLineStep (f : List Char → Bool) (st : WatchSt) (line : List Char) : WatchSt :=
  if !st.found && f line then
    { st with
      output := st.output ++ line ++ ['\n']
      found := true
      matchedLine := line
      killed := true }
  else { st with output := st.output ++ line ++ ['\n'] }

/-- Event handling of `watchForPattern` (index.ts lines 1000-1031):
stdout chunks are split and each line is appended and matched; stderr
chunks are appended raw; `close` resolves `{found, matchedLine,
allOutput: output}`; `error` resolves `{found: false, matchedLine: "",
allOutput: Error message}`; the timeout timer acts only `if (!found)`,
killing the process and resolving the not-found result with the
timeout note appended. -/
def watchEvStep (f : List Char → Bool) (st : WatchSt) : ProcEv → WatchSt
  | .stdout chunk => (splitNl chunk).foldl (watchLineStep f) st
  | .stderrEv chunk => { st with output := st.output ++ chunk }
  | .closeEv => { st with resolved := orSet st.resolved ⟨st.found, st.matchedLine, st.output⟩ }
  | .errorEv msg => { st with resolved := orSet st.resolved ⟨false, [], errText ++ msg⟩ }
  | .timer =>
    if st.found then st
    else
      { st with
        killed := true
        resolved := orSet st.resolved ⟨false, [], st.output ++ timeoutNote⟩ }

def watchRun (f : List Char → Bool) (events : List ProcEv) : WatchSt :=
  events.foldl (watchEvStep f) watchInit

/-- The `get_device_logs` tool handler's clamp of `lastMinutes`
(index.ts line 1470): `Math.min((args?.lastMinutes as number) || 5,
10)`. -/
def deviceLogsLastMinutes (m : Option Nat) : Nat :=
  min (match m with | none => 5 | some 0 => 5 | some (Nat.succ k) => Nat.succ k) 10

/-- The `getDeviceLogs` collection window in milliseconds (index.ts
line 478): `Math.min(lastMinutes * 1000, 10000)` — the minutes value is
multiplied by 1000, i.e. scaled as seconds. -/
def collectDuration (lastMinutes : Nat) : Nat :=
  min (lastMinutes * 1000) 10000

/-! ## Helper lemmas -/

/-- A predicate preserved by each step of a left fold is preserved by
the whole fold. -/
theorem foldl_pres {α β : Type} (P : α → Prop) (g : α → β → α)
    (hg : ∀ a b, P a → P (g a b)) :
    ∀ (l : List β) (a : α), P a → P (l.foldl g a)
  | [], _, h => h
  | b :: l, a, h => foldl_pres P g hg l (g a b) (hg a b h)

/-- `splitNl` never returns the empty list of segments. -/
theorem splitNl_ne_nil (s : List Char) : splitNl s ≠ [] := by
  cases s with
  | nil => simp [splitNl]
  | cons c cs =>
    unfold splitNl
    split
    · simp
    · split <;> simp

/-- A chunk with no line-feed character is a single segment. -/
theorem splitNl_no_nl : ∀ (xs : List Char), (∀ c ∈ xs, c ≠ '\n') → splitNl xs = [xs]
  | [], _ => rfl
  | c :: cs, h => by
    have hc : c ≠ '\n' := h c (List.mem_cons_self c cs)
    have ih := splitNl_no_nl cs (fun d hd => h d (List.mem_cons_of_mem c hd))
    unfold splitNl
    rw [if_neg hc, ih]

/-! ## C1: the bounded collecting loop never exceeds the cap -/

/-- C1: for every `maxLines = N` and every sequence of arriving output
chunks, the collecting loops of the bounded fetch (`getMacLogs`) and of
the search call (`searchLogs`) accumulate at most `N` lines in the
output buffer and count at most `N`; and once the count has reached
`N`, processing any further line leaves both the buffer and the count
unchanged. -/
theorem bounded_collector_cap (N : Nat) (f : List Char → Bool)
    (chunks : List (List Char)) :
    (collectRun N chunks).lineCount ≤ N
  ∧ (collectRun N chunks).output.length ≤ N
  ∧ (searchCollectRun f N chunks).lineCount ≤ N
  ∧ (searchCollectRun f N chunks).output.length ≤ N
  ∧ (∀ st line, N ≤ st.lineCount → collectStep N st line = st)
  ∧ (∀ st line, N ≤ st.lineCount → searchStep f N st line = st) := by
  have hcstep : ∀ (st : CollectSt) (l : List Char),
      (st.output.length = st.lineCount ∧ st.lineCount ≤ N) →
      ((collectStep N st l).output.length = (collectStep N st l).lineCount ∧
        (collectStep N st l).lineCount ≤ N) := by
    intro st l h
    unfold collectStep
    split
    · refine ⟨?_, ?_⟩
      · simp [h.1]
      · simp; omega
    · exact h
  have hsstep : ∀ (st : CollectSt) (l : List Char),
      (st.output.length = st.lineCount ∧ st.lineCount ≤ N) →
      ((searchStep f N st l).output.length = (searchStep f N st l).lineCount ∧
        (searchStep f N st l).lineCount ≤ N) := by
    intro st l h
    unfold searchStep
    split
    · next hcond =>
      refine ⟨?_, ?_⟩
      · simp [h.1]
      · simp; omega
    · exact h
  have hc : (collectRun N chunks).output.length = (collectRun N chunks).lineCount ∧
      (collectRun N chunks).lineCount ≤ N := by
    refine foldl_pres _ (collectChunk N)
      (fun st c h => foldl_pres _ (collectStep N) hcstep (splitNl c) st h)
      chunks ⟨[], 0⟩ ⟨rfl, Nat.zero_le N⟩
  have hs : (searchCollectRun f N chunks).output.length = (searchCollectRun f N chunks).lineCount ∧
      (searchCollectRun f N chunks).lineCount ≤ N := by
    refine foldl_pres _ _
      (fun st c h => foldl_pres _ (searchStep f N) hsstep (splitNl c) st h)
      chunks ⟨[], 0⟩ ⟨rfl, Nat.zero_le N⟩
  refine ⟨hc.2, hc.1 ▸ hc.2, hs.2, hs.1 ▸ hs.2, ?_, ?_⟩
  · intro st line h
    unfold collectStep
    rw [if_neg (by omega)]
  · intro st line h
    unfold searchStep
    rw [if_neg (fun hcond => absurd hcond.2 (by omega))]

/-- Witness for C1 at `N = 2`: a four-line arrival keeps the count at
the cap, and both loop bodies are the identity on an at-capacity state. -/
theorem bounded_collector_cap_witness :
    (collectRun 2 ["a\nb\nc\nd\n".toList]).lineCount ≤ 2
  ∧ collectStep 2 ⟨["a".toList, "b".toList], 2⟩ "c".toList = ⟨["a".toList, "b".toList], 2⟩
  ∧ searchStep (substrMatch "err".toList) 2 ⟨["x".toList], 2⟩ "err line".toList
      = ⟨["x".toList], 2⟩ :=
  ⟨(bounded_collector_cap 2 (substrMatch "err".toList) ["a\nb\nc\nd\n".toList]).1,
   (bounded_collector_cap 2 (substrMatch "err".toList) ["a\nb\nc\nd\n".toList]).2.2.2.2.1
     ⟨["a".toList, "b".toList], 2⟩ "c".toList (by decide),
   (bounded_collector_cap 2 (substrMatch "err".toList) ["a\nb\nc\nd\n".toList]).2.2.2.2.2
     ⟨["x".toList], 2⟩ "err line".toList (by decide)⟩

/-! ## C8: searchLogs filters before collecting -/

/-- C8: in `searchLogs`, every arriving line is evaluated by the
matcher before collection: only matching lines are appended to the
output and counted against `maxLines` (a matching line under the cap is
appended and increments the count), and a non-matching line never
increments the line count or changes the output, for every input
sequence and cap. -/
theorem search_filter_before_collect (f : List Char → Bool) (N : Nat)
    (chunks : List (List Char)) :
    (∀ l ∈ (searchCollectRun f N chunks).output, f l = true)
  ∧ (∀ st line, f line = false → searchStep f N st line = st)
  ∧ (∀ st line, f line = true → st.lineCount < N →
      searchStep f N st line = ⟨st.output ++ [line], st.lineCount + 1⟩) := by
  have hstep : ∀ (st : CollectSt) (l : List Char),
      (∀ x ∈ st.output, f x = true) → ∀ x ∈ (searchStep f N st l).output, f x = true := by
    intro st l h x hx
    unfold searchStep at hx
    split at hx
    · next hcond =>
      simp only [List.mem_append, List.mem_singleton] at hx
      rcases hx with hx | rfl
      · exact h x hx
      · exact hcond.1
    · exact h x hx
  refine ⟨?_, ?_, ?_⟩
  · exact foldl_pres (fun st => ∀ x ∈ st.output, f x = true) _
      (fun st c h => foldl_pres _ (searchStep f N) hstep (splitNl c) st h)
      chunks ⟨[], 0⟩ (by simp)
  · intro st line h
    unfold searchStep
    rw [if_neg (fun hcond => by simp [h] at hcond)]
  · intro st line hf hlt
    unfold searchStep
    rw [if_pos ⟨hf, hlt⟩]

/-- Witness for C8: with the case-insensitive substring matcher for
`"error"`, a mixed arrival sequence collects only matching lines, a
non-matching line is a no-op, and a matching line under the cap is
appended and counted. -/
theorem search_filter_before_collect_witness :
    (∀ l ∈ (searchCollectRun (substrMatch "error".toList) 10
        ["ok line\nan ERROR here\nfine\n".toList]).output,
      substrMatch "error".toList l = true)
  ∧ searchStep (substrMatch "error".toList) 10 ⟨[], 0⟩ "ok line".toList = ⟨[], 0⟩
  ∧ searchStep (substrMatch "error".toList) 10 ⟨[], 0⟩ "an ERROR here".toList
      = ⟨["an ERROR here".toList], 1⟩ :=
  ⟨(search_filter_before_collect (substrMatch "error".toList) 10
      ["ok line\nan ERROR here\nfine\n".toList]).1,
   (search_filter_before_collect (substrMatch "error".toList) 10
      ["ok line\nan ERROR here\nfine\n".toList]).2.1 ⟨[], 0⟩ "ok line".toList (by decide),
   (search_filter_before_collect (substrMatch "error".toList) 10
      ["ok line\nan ERROR here\nfine\n".toList]).2.2 ⟨[], 0⟩ "an ERROR here".toList
      (by decide) (by decide)⟩

/-! ## C3: chunk-boundary invariance of the line splitting fails -/

/-- C3 counterexample: the text `"abcd\n"` fed as one chunk splits into
the single line `"abcd"` (plus the empty trailing segment), but fed as
the two chunks `"ab"` and `"cd\n"` it splits into the two lines `"ab"`
and `"cd"`: the line sequence depends on the chunk boundaries, so the
claimed chunk-boundary invariance is false. -/
theorem chunk_split_cx :
    linesOfChunks ["ab".toList, "cd\n".toList]
      ≠ splitNl ("ab".toList ++ "cd\n".toList) := by decide

/-- C3 amended: the code splits each chunk on line-feeds independently
and keeps no pending partial-line buffer, so a line fragment at the end
of one chunk (here: a chunk containing no line-feed at all) is emitted
as its own line rather than joined with the start of the next chunk. -/
theorem chunk_split_fragment (xs ys : List Char) (h : ∀ c ∈ xs, c ≠ '\n') :
    linesOfChunks [xs, ys] = xs :: splitNl ys := by
  simp [linesOfChunks, splitNl_no_nl xs h]

/-- Witness for the amended C3: the trailing fragment `"ab"` of the
first chunk becomes its own line in front of the second chunk's lines. -/
theorem chunk_split_fragment_witness :
    linesOfChunks ["ab".toList, "cd\n".toList] = "ab".toList :: splitNl "cd\n".toList :=
  chunk_split_fragment "ab".toList "cd\n".toList (by decide)

/-! ## C2: invalid regex is rejected, but only after the spawn -/

/-- C2 counterexample: with `useRegex` enabled and a pattern whose
`new RegExp` construction fails (e.g. the unbalanced bracket pattern
`"["`), both `searchLogs` and `watchForPattern` spawn the external
`log` process as the very first step of the executor and only then
attempt to build the regex, so the process is started before the
pattern is validated — refuting the claim that no external process is
started before validation. -/
theorem invalid_regex_spawn_order_cx :
    searchLogsInit true false
      = [InitStep.spawnProc, InitStep.buildRegex, InitStep.resolveInvalid]
  ∧ watchForPatternInit true false
      = [InitStep.spawnProc, InitStep.buildRegex, InitStep.resolveInvalid]
  ∧ spawnedBeforeCheck (searchLogsInit true false) = true
  ∧ spawnedBeforeCheck (watchForPatternInit true false) = true := by decide

/-- C2 amended: for every syntactically invalid regex pattern with
`useRegex` enabled, `search_logs` and `watch_for_pattern` do resolve
with an invalid-pattern error and never attach the stream handlers, but
the external process has already been spawned before the pattern is
validated: the spawn is unconditionally the first step of both
executors. -/
theorem invalid_regex_spawn_order (u k : Bool) :
    (searchLogsInit u k).head? = some InitStep.spawnProc
  ∧ (watchForPatternInit u k).head? = some InitStep.spawnProc
  ∧ (u = true → k = false →
      InitStep.resolveInvalid ∈ searchLogsInit u k
    ∧ InitStep.attachHandlers ∉ searchLogsInit u k
    ∧ InitStep.resolveInvalid ∈ watchForPatternInit u k
    ∧ InitStep.attachHandlers ∉ watchForPatternInit u k) := by
  cases u <;> cases k <;> decide

/-- Witness for the amended C2 at `useRegex = true` with a failing
pattern compilation: the spawn comes first and the invalid-pattern
resolution occurs with no handlers attached. -/
theorem invalid_regex_spawn_order_witness :
    (searchLogsInit true false).head? = some InitStep.spawnProc
  ∧ InitStep.resolveInvalid ∈ searchLogsInit true false
  ∧ InitStep.attachHandlers ∉ searchLogsInit true false
  ∧ InitStep.resolveInvalid ∈ watchForPatternInit true false :=
  ⟨(invalid_regex_spawn_order true false).1,
   ((invalid_regex_spawn_order true false).2.2 rfl rfl).1,
   ((invalid_regex_spawn_order true false).2.2 rfl rfl).2.1,
   ((invalid_regex_spawn_order true false).2.2 rfl rfl).2.2.1⟩

/-! ## C10: getDeviceLogs scales lastMinutes as seconds -/

/-- C10: in `get_device_logs`, the handler clamps `lastMinutes` to at
most 10 and `getDeviceLogs` collects for `min(lastMinutes * 1000,
10000)` milliseconds before killing the process: the parameter is
scaled as seconds, so a request for `m` minutes (`m ≥ 1`) collects for
exactly `min m 10` seconds — `min m 10 * 1000` milliseconds, never more
than 10000 ms. -/
theorem device_logs_seconds_scale (m : Nat) (h : 1 ≤ m) :
    collectDuration (deviceLogsLastMinutes (some m)) = min m 10 * 1000
  ∧ collectDuration (deviceLogsLastMinutes (some m)) ≤ 10000 := by
  cases m with
  | zero => omega
  | succ k =>
    simp only [deviceLogsLastMinutes, collectDuration]
    omega

/-- Witness for C10: requesting 15 minutes of device logs collects for
10 seconds (10000 ms), and requesting 3 minutes collects for 3 seconds. -/
theorem device_logs_seconds_scale_witness :
    collectDuration (deviceLogsLastMinutes (some 15)) = min 15 10 * 1000
  ∧ collectDuration (deviceLogsLastMinutes (some 15)) ≤ 10000 :=
  device_logs_seconds_scale 15 (by decide)

/-- Line processing never touches the resolved value. -/
theorem watchLineStep_foldl_resolved (f : List Char → Bool) :
    ∀ (lines : List (List Char)) (st : WatchSt),
      (lines.foldl (watchLineStep f) st).resolved = st.resolved
  | [], _ => rfl
  | l :: ls, st => by
    rw [List.foldl_cons, watchLineStep_foldl_resolved f ls]
    unfold watchLineStep
    split <;> rfl

/-- After a match has been recorded, further lines only extend the
output: `found`, `matchedLine`, `killed` and `resolved` are unchanged. -/
theorem watchLineStep_foldl_found_stable (f : List Char → Bool) :
    ∀ (lines : List (List Char)) (st : WatchSt), st.found = true →
      (lines.foldl (watchLineStep f) st).found = true
    ∧ (lines.foldl (watchLineStep f) st).matchedLine = st.matchedLine
    ∧ (lines.foldl (watchLineStep f) st).killed = st.killed
    ∧ (lines.foldl (watchLineStep f) st).resolved = st.resolved
  | [], _, h => ⟨h, rfl, rfl, rfl⟩
  | l :: ls, st, h => by
    rw [List.foldl_cons]
    have hstep : watchLineStep f st l = { st with output := st.output ++ l ++ ['\n'] } := by
      unfold watchLineStep
      rw [if_neg (by simp [h])]
    rw [hstep]
    exact watchLineStep_foldl_found_stable f ls _ h

/-- Processing a line sequence whose first match (in processing order)
is `m`, from a state with no match yet: the final state records the
match with `matchedLine = m`, the kill has been requested, and the
resolved value is untouched. -/
theorem watchLineStep_foldl_find (f : List Char → Bool) :
    ∀ (lines : List (List Char)) (st : WatchSt) (m : List Char), st.found = false →
      lines.find? f = some m →
      (lines.foldl (watchLineStep f) st).found = true
    ∧ (lines.foldl (watchLineStep f) st).matchedLine = m
    ∧ (lines.foldl (watchLineStep f) st).killed = true
    ∧ (lines.foldl (watchLineStep f) st).resolved = st.resolved
  | [], _, m, _, hm => by simp at hm
  | l :: ls, st, m, h, hm => by
    rw [List.foldl_cons]
    cases hl : f l with
    | true =>
      rw [List.find?_cons_of_pos _ hl, Option.some_inj] at hm
      have hstep : watchLineStep f st l =
          { st with
            output := st.output ++ l ++ ['\n']
            found := true
            matchedLine := l
            killed := true } := by
        unfold watchLineStep
        rw [if_pos (by simp [h, hl])]
      rw [hstep]
      have hs := watchLineStep_foldl_found_stable f ls
        { st with
          output := st.output ++ l ++ ['\n']
          found := true
          matchedLine := l
          killed := true } rfl
      exact ⟨hs.1, hm ▸ hs.2.1, hs.2.2.1, hs.2.2.2⟩
    | false =>
      rw [List.find?_cons_of_neg _ (by simp [hl])] at hm
      have hstep : watchLineStep f st l = { st with output := st.output ++ l ++ ['\n'] } := by
        unfold watchLineStep
        rw [if_neg (by simp [hl])]
      rw [hstep]
      exact watchLineStep_foldl_find f ls _ m h hm

/-- Feeding the stdout chunks through the event step equals running the
line loop over the per-chunk split lines. -/
theorem watch_stdout_run (f : List Char → Bool) :
    ∀ (chunks : List (List Char)) (st : WatchSt),
      (chunks.map ProcEv.stdout).foldl (watchEvStep f) st
        = (linesOfChunks chunks).foldl (watchLineStep f) st
  | [], _ => rfl
  | c :: cs, st => by
    rw [List.map_cons, List.foldl_cons]
    have : linesOfChunks (c :: cs) = splitNl c ++ linesOfChunks cs := by
      simp [linesOfChunks]
    rw [this, List.foldl_append]
    exact watch_stdout_run f cs _

/-- Once the promise is resolved, no later event changes the resolved
value. -/
theorem watchEvStep_resolved_stable (f : List Char → Bool) (r : WatchResult) :
    ∀ (events : List ProcEv) (st : WatchSt), st.resolved = some r →
      (events.foldl (watchEvStep f) st).resolved = some r := by
  intro events st h
  refine foldl_pres (fun s => s.resolved = some r) (watchEvStep f) ?_ events st h
  intro s e hs
  cases e with
  | stdout chunk =>
    simp only [watchEvStep]
    exact (watchLineStep_foldl_resolved f (splitNl chunk) s).trans hs
  | stderrEv chunk => exact hs
  | closeEv => simp [watchEvStep, orSet, hs]
  | errorEv msg => simp [watchEvStep, orSet, hs]
  | timer =>
    simp only [watchEvStep]
    split
    · exact hs
    · simp [orSet, hs]

/-! ## C4: watch_for_pattern finds the first matching line and kills -/

/-- C4: for every line sequence (in processing order, i.e. the
per-chunk split lines) containing a matching line, `watchForPattern`
records `found = true` with `matchedLine` equal to the first matching
line, requests termination of the producing process (`child.kill`)
upon that first match, and — when the process then closes — resolves
with `found = true` and that matched line. -/
theorem watch_first_match (f : List Char → Bool) (chunks : List (List Char))
    (m : List Char) (hm : (linesOfChunks chunks).find? f = some m) :
    (watchRun f (chunks.map ProcEv.stdout)).found = true
  ∧ (watchRun f (chunks.map ProcEv.stdout)).matchedLine = m
  ∧ (watchRun f (chunks.map ProcEv.stdout)).killed = true
  ∧ (watchRun f (chunks.map ProcEv.stdout ++ [ProcEv.closeEv])).resolved
      = some ⟨true, m, (watchRun f (chunks.map ProcEv.stdout)).output⟩ := by
  have hrun : watchRun f (chunks.map ProcEv.stdout)
      = (linesOfChunks chunks).foldl (watchLineStep f) watchInit :=
    watch_stdout_run f chunks watchInit
  have hfind := watchLineStep_foldl_find f (linesOfChunks chunks) watchInit m rfl hm
  have h1 : (watchRun f (chunks.map ProcEv.stdout)).found = true := by
    rw [hrun]; exact hfind.1
  have h2 : (watchRun f (chunks.map ProcEv.stdout)).matchedLine = m := by
    rw [hrun]; exact hfind.2.1
  have h3 : (watchRun f (chunks.map ProcEv.stdout)).killed = true := by
    rw [hrun]; exact hfind.2.2.1
  have h4 : (watchRun f (chunks.map ProcEv.stdout)).resolved = none := by
    rw [hrun]; exact hfind.2.2.2
  refine ⟨h1, h2, h3, ?_⟩
  have hsplit : watchRun f (chunks.map ProcEv.stdout ++ [ProcEv.closeEv])
      = watchEvStep f (watchRun f (chunks.map ProcEv.stdout)) ProcEv.closeEv := by
    simp only [watchRun, List.foldl_append, List.foldl_cons, List.foldl_nil]
  rw [hsplit]
  simp [watchEvStep, orSet, h1, h2, h4]

/-- Witness for C4: the producer emits a boot line, then a line
containing "connection established"; the watch records exactly that
line, requests the kill, and resolves found with it at close. -/
theorem watch_first_match_witness :
    (watchRun (substrMatch "connection established".toList)
        ([("boot ok\nconnection established to host\ntail\n".toList)].map ProcEv.stdout)).found
      = true
  ∧ (watchRun (substrMatch "connection established".toList)
        ([("boot ok\nconnection established to host\ntail\n".toList)].map ProcEv.stdout)).matchedLine
      = "connection established to host".toList
  ∧ (watchRun (substrMatch "connection established".toList)
        ([("boot ok\nconnection established to host\ntail\n".toList)].map ProcEv.stdout)).killed
      = true
  ∧ (watchRun (substrMatch "connection established".toList)
        ([("boot ok\nconnection established to host\ntail\n".toList)].map ProcEv.stdout
          ++ [ProcEv.closeEv])).resolved
      = some ⟨true, "connection established to host".toList,
          (watchRun (substrMatch "connection established".toList)
            ([("boot ok\nconnection established to host\ntail\n".toList)].map ProcEv.stdout)).output⟩ :=
  watch_first_match (substrMatch "connection established".toList)
    [("boot ok\nconnection established to host\ntail\n".toList)]
    "connection established to host".toList (by decide)

/-! ## C5: match-found versus timeout is first-completed-wins -/

/-- C5: in `watchForPattern`, match-found and timeout race with
first-completed-wins semantics: if no match has occurred (and nothing
else has resolved the promise) when the timer fires, the call resolves
as not-found with the timeout note, and no later event — including a
match arriving after the timer — changes the resolved result;
conversely, once a match has been found the timer event is a complete
no-op, suppressing the timeout resolution. -/
theorem watch_timeout_race (f : List Char → Bool) (pre post : List ProcEv)
    (hf : (watchRun f pre).found = false)
    (hr : (watchRun f pre).resolved = none) :
    (watchRun f (pre ++ ProcEv.timer :: post)).resolved
      = some ⟨false, [], (watchRun f pre).output ++ timeoutNote⟩
  ∧ ∀ st : WatchSt, st.found = true → watchEvStep f st ProcEv.timer = st := by
  constructor
  · have hsplit : watchRun f (pre ++ ProcEv.timer :: post)
        = post.foldl (watchEvStep f) (watchEvStep f (watchRun f pre) ProcEv.timer) := by
      simp only [watchRun, List.foldl_append, List.foldl_cons]
    rw [hsplit]
    have htimer : (watchEvStep f (watchRun f pre) ProcEv.timer).resolved
        = some ⟨false, [], (watchRun f pre).output ++ timeoutNote⟩ := by
      simp [watchEvStep, hf, hr, orSet]
    exact watchEvStep_resolved_stable f _ post _ htimer
  · intro st h
    simp [watchEvStep, h]

/-- Witness for C5: the pattern "needle" has not matched when the timer
fires, so the call resolves as the timeout result; a matching line and
the close event arriving after the timer leave that result unchanged;
and the timer event is the identity on a state with a recorded match. -/
theorem watch_timeout_race_witness :
    (watchRun (substrMatch "needle".toList)
        ([ProcEv.stdout "haystack only\n".toList] ++ ProcEv.timer ::
          [ProcEv.stdout "needle arrives late\n".toList, ProcEv.closeEv])).resolved
      = some ⟨false, [],
          (watchRun (substrMatch "needle".toList)
            [ProcEv.stdout "haystack only\n".toList]).output ++ timeoutNote⟩
  ∧ watchEvStep (substrMatch "needle".toList)
      ⟨"x\n".toList, true, "needle here".toList, true, none⟩ ProcEv.timer
      = ⟨"x\n".toList, true, "needle here".toList, true, none⟩ :=
  ⟨(watch_timeout_race (substrMatch "needle".toList)
      [ProcEv.stdout "haystack only\n".toList]
      [ProcEv.stdout "needle arrives late\n".toList, ProcEv.closeEv]
      (by decide) (by decide)).1,
   (watch_timeout_race (substrMatch "needle".toList)
      [ProcEv.stdout "haystack only\n".toList]
      [ProcEv.stdout "needle arrives late\n".toList, ProcEv.closeEv]
      (by decide) (by decide)).2
     ⟨"x\n".toList, true, "needle here".toList, true, none⟩ rfl⟩

/-- A once-only resolution always leaves the promise resolved. -/
theorem orSet_isSome {α : Type} (o : Option α) (v : α) : (orSet o v).isSome = true := by
  cases o <;> rfl

/-! ## C6: the wall-clock bound resolves every call — except watch
after a match -/

/-- C6 counterexample: in `watchForPattern`, once a line has matched
("ok" below), the timeout callback is guarded by `if (!found)` and
does nothing, and the call resolves only at the process `close` event.
With a producing process that never exits (so `close` never fires), the
state after the timer has fired still has `resolved = none`: the call
has passed its wall-clock bound without resolving, refuting the claim
that every operation resolves within an enforced upper bound for every
input. -/
theorem watch_unresolved_after_match_cx :
    (watchRun (substrMatch "ok".toList)
        [ProcEv.stdout "setup done ok\n".toList, ProcEv.timer]).found = true
  ∧ (watchRun (substrMatch "ok".toList)
        [ProcEv.stdout "setup done ok\n".toList, ProcEv.timer]).killed = true
  ∧ (watchRun (substrMatch "ok".toList)
        [ProcEv.stdout "setup done ok\n".toList, ProcEv.timer]).resolved = none := by
  decide

/-- C6 amended: every acquisition call arms a timer
(`getMacLogs`/`getLogsByLevel`/`getSimulatorLogs` 15 s, `searchLogs`
30 s, the stream calls at the clamped duration, `watchForPattern` at
the clamped timeout), and the timer callbacks of `getMacLogs`,
`searchLogs` and `streamDeviceLogs` kill the process and resolve the
call unconditionally — so those calls resolve at the bound even if the
producer never exits; `watchForPattern`'s timer, however, resolves only
when no match has been found, so after a match the call resolves only
when the process actually closes. -/
theorem acquisition_timer_bound (N : Nat) (f : List Char → Bool) (q : List Char)
    (stM : MacSt) (stS : SearchSt) (stR : StreamSt) (stW : WatchSt) :
    ((macEvStep N stM ProcEv.timer).resolved).isSome = true
  ∧ (macEvStep N stM ProcEv.timer).killed = true
  ∧ ((searchEvStep f N q stS ProcEv.timer).resolved).isSome = true
  ∧ (searchEvStep f N q stS ProcEv.timer).killed = true
  ∧ ((streamEvStep stR ProcEv.timer).resolved).isSome = true
  ∧ (streamEvStep stR ProcEv.timer).killed = true
  ∧ (stW.found = false → ((watchEvStep f stW ProcEv.timer).resolved).isSome = true) := by
  refine ⟨?_, ?_, ?_, ?_, ?_, ?_, ?_⟩
  · simp [macEvStep, orSet_isSome]
  · simp [macEvStep]
  · simp [searchEvStep, orSet_isSome]
  · simp [searchEvStep]
  · simp [streamEvStep, orSet_isSome]
  · simp [streamEvStep]
  · intro h
    simp [watchEvStep, h, orSet_isSome]

/-- Witness for the amended C6: from the initial states, the timer
resolves the mac-log call and (with no match yet) the watch call. -/
theorem acquisition_timer_bound_witness :
    ((macEvStep 200 macInit ProcEv.timer).resolved).isSome = true
  ∧ ((watchEvStep (substrMatch "x".toList) watchInit ProcEv.timer).resolved).isSome = true :=
  ⟨(acquisition_timer_bound 200 (substrMatch "x".toList) "q".toList
      macInit searchInit streamInit watchInit).1,
   (acquisition_timer_bound 200 (substrMatch "x".toList) "q".toList
      macInit searchInit streamInit watchInit).2.2.2.2.2.2 rfl⟩

/-! ## C7: spawn failure resolves with a structured error -/

/-- C7: for every strategy, the process `error` event raised when
spawning a command that does not exist resolves the call with a
structured result — `Error: ` plus the message for `getMacLogs`,
`searchLogs` and `streamDeviceLogs`, and `found = false` with the error
text in the output for `watchForPattern` — rather than leaving the
promise pending, rejecting it, or raising an unhandled fault. -/
theorem spawn_error_resolves (N : Nat) (f : List Char → Bool) (q msg : List Char) :
    (macRun N [ProcEv.errorEv msg]).resolved = some (errText ++ msg)
  ∧ (searchRun f N q [ProcEv.errorEv msg]).resolved = some (errText ++ msg)
  ∧ (streamRun [ProcEv.errorEv msg]).resolved = some (errText ++ msg)
  ∧ (watchRun f [ProcEv.errorEv msg]).resolved = some ⟨false, [], errText ++ msg⟩ :=
  ⟨rfl, rfl, rfl, rfl⟩

/-! ## C9: stream_logs terminates at the clamped duration but
substitutes a placeholder for empty output -/

/-- C9 counterexample: when the duration timer fires with nothing
collected, `streamDeviceLogs` resolves with the placeholder text
`"No logs captured during stream"`, which is not the empty collected
text — refuting the part of the claim that the returned text is the
empty collected text. -/
theorem stream_empty_placeholder_cx :
    (streamRun [ProcEv.timer]).output = []
  ∧ (streamRun [ProcEv.timer]).resolved = some noLogsCaptured
  ∧ noLogsCaptured ≠ [] := by decide

/-- C9 amended: `stream_logs` clamps the caller-supplied duration to at
most 30 seconds, and at duration expiry the timer kills the session and
resolves the call successfully: with the collected text when anything
was collected, but with the placeholder text `"No logs captured during
stream"` — not the empty collected text — when nothing was collected. -/
theorem stream_timer_outcome (d : Option Nat) (st : StreamSt) :
    streamLogsDuration d ≤ 30
  ∧ (streamEvStep st ProcEv.timer).killed = true
  ∧ ((streamEvStep st ProcEv.timer).resolved).isSome = true
  ∧ (st.resolved = none → st.output ≠ [] →
      (streamEvStep st ProcEv.timer).resolved = some st.output)
  ∧ (st.resolved = none → st.output = [] →
      (streamEvStep st ProcEv.timer).resolved = some noLogsCaptured) := by
  refine ⟨Nat.min_le_right _ _, ?_, ?_, ?_, ?_⟩
  · simp [streamEvStep]
  · simp [streamEvStep, orSet_isSome]
  · intro h1 h2
    simp [streamEvStep, h1, h2, orSet]
  · intro h1 h2
    simp [streamEvStep, h1, h2, orSet]

/-- Witness for the amended C9: a 45-second request is clamped to at
most 30; with collected text the timer resolves with that text; with
nothing collected it resolves with the placeholder. -/
theorem stream_timer_outcome_witness :
    streamLogsDuration (some 45) ≤ 30
  ∧ (streamEvStep ⟨"log line\n".toList, false, none⟩ ProcEv.timer).resolved
      = some ("log line\n".toList)
  ∧ (streamEvStep ⟨[], false, none⟩ ProcEv.timer).resolved = some noLogsCaptured :=
  ⟨(stream_timer_outcome (some 45) ⟨[], false, none⟩).1,
   (stream_timer_outcome (some 45) ⟨"log line\n".toList, false, none⟩).2.2.2.1 rfl (by decide),
   (stream_timer_outcome (some 45) ⟨[], false, none⟩).2.2.2.2 rfl rfl⟩
